import Mathlib

/-!
Verification of the DailyLearningPlan planner backend.

The repository's `src/planner` package contains the Django boundary layer
(models, serializers, urls, views).  The allocation engine itself
(`planner/ai_service.generate_schedule`, imported by `views.py`) is not
present in the source tree, so the Topic Allocator and Calendar Projector
are modelled from the specification; the boundary-layer endpoints
(`register_user`, `login_user`, `ai_generate_plan`) and the model /
serializer status computation are embedded from the source files.
-/

/-- Error kinds of the allocation engine.
Modelled from the spec: section 7 names the two error kinds
`InvalidArgument` and `EmptyInput` of the engine, whose code
(`planner/ai_service.py`) is missing from the source tree. -/
inductive AllocError where
  | invalidArgument (msg : String)
  | emptyInput (msg : String)
deriving DecidableEq, Repr

/-- A day bucket of the allocation engine.
Modelled from the spec: section 3 defines `DayBucket` as
`{ dayIndex ≥ 1, topics : ordered sequence, plannedHours : Nat }`. -/
structure DayBucket where
  dayIndex : Nat
  topics : List String
  plannedHours : Nat
deriving DecidableEq, Repr

/-- Bucket sizes of the balanced split.
Modelled from the spec: with `q = T div D` and `r = T mod D`, the first
`r` buckets receive `q+1` topics each and the remaining `D-r` buckets
receive `q` topics each (section 4.1, the engine source being absent). -/
def bucketSizes (T D : Nat) : List Nat :=
  (List.range D).map (fun i => if i < T % D then T / D + 1 else T / D)

/-- Cut a list into consecutive pieces of the given sizes.
Modelled from the spec: section 4.1 requires contiguous, non-overlapping,
order-preserving groups (the engine source being absent). -/
def splitTopics (l : List String) (sizes : List Nat) : List (List String) :=
  match sizes with
  | [] => []
  | s :: rest => l.take s :: splitTopics (l.drop s) rest

/-- Turn topic groups into day buckets with 1-based day indices.
Modelled from the spec: sections 3 and 4.1 (the engine source being
absent).  A non-empty bucket is budgeted the full `hoursPerDay`; an empty
placeholder day gets `plannedHours = 0`.  The spec leaves the under-supply
fill policy open (pad with empty days vs. cycle topics); the
pad-with-empty-days policy is modelled. -/
def mkBuckets (groups : List (List String)) (hrs : Nat) (idx : Nat) : List DayBucket :=
  match groups with
  | [] => []
  | g :: rest => ⟨idx, g, if g.isEmpty then 0 else hrs⟩ :: mkBuckets rest hrs (idx + 1)

/-- The Topic Allocator.
Modelled from the spec: section 4.1's contract
`allocate(topics, days, hoursPerDay) → ordered sequence of DayBucket`
(the engine source `planner/ai_service.py` being absent from src/).
Validation of `days` and `hoursPerDay` happens before any allocation
work; zero topics is treated as the valid degenerate case, as section 4.1
states that the allocator never raises on topic-count mismatch. -/
def allocate (topics : List String) (days hoursPerDay : Int) :
    Except AllocError (List DayBucket) :=
  if days ≤ 0 then .error (.invalidArgument "days must be positive")
  else if hoursPerDay ≤ 0 then .error (.invalidArgument "hoursPerDay must be positive")
  else
    .ok (mkBuckets (splitTopics topics (bucketSizes topics.length days.toNat))
          hoursPerDay.toNat 1)

-- Helper lemmas about the split

theorem splitTopics_length (l : List String) (sizes : List Nat) :
    (splitTopics l sizes).length = sizes.length := by
  induction sizes generalizing l with
  | nil => simp [splitTopics]
  | cons s rest ih => simp [splitTopics, ih]

theorem splitTopics_flatten (l : List String) (sizes : List Nat) :
    (splitTopics l sizes).flatten = l.take sizes.sum := by
  induction sizes generalizing l with
  | nil => simp [splitTopics]
  | cons s rest ih =>
      simp only [splitTopics, List.flatten_cons, ih, List.sum_cons]
      rw [List.take_add]

theorem splitTopics_map_length (l : List String) (sizes : List Nat)
    (h : sizes.sum ≤ l.length) :
    (splitTopics l sizes).map List.length = sizes := by
  induction sizes generalizing l with
  | nil => simp [splitTopics]
  | cons s rest ih =>
      simp only [List.sum_cons] at h
      simp only [splitTopics, List.map_cons, List.length_take]
      have h1 : s ⊓ l.length = s := by omega
      have h2 : rest.sum ≤ (List.drop s l).length := by
        rw [List.length_drop]; omega
      rw [h1, ih _ h2]

theorem sum_map_range_ite (q r D : Nat) :
    (((List.range D).map (fun i => if i < r then q + 1 else q)).sum) = D * q + min r D := by
  induction D with
  | zero => simp
  | succ n ih =>
      rw [List.range_succ, List.map_append, List.sum_append]
      by_cases h : n < r
      · have hmin : min r (n + 1) = n + 1 := by omega
        have hmin' : min r n = n := by omega
        simp only [ih, hmin, hmin', List.map_cons, List.map_nil, List.sum_cons,
          List.sum_nil, if_pos h]
        ring
      · have hmin : min r (n + 1) = min r n := by omega
        simp only [ih, hmin, List.map_cons, List.map_nil, List.sum_cons,
          List.sum_nil, if_neg h]
        ring

theorem bucketSizes_length (T D : Nat) : (bucketSizes T D).length = D := by
  simp [bucketSizes]

theorem bucketSizes_sum (T D : Nat) (hD : 0 < D) : (bucketSizes T D).sum = T := by
  unfold bucketSizes
  rw [sum_map_range_ite]
  have hlt : T % D < D := Nat.mod_lt _ hD
  have : min (T % D) D = T % D := by omega
  rw [this]
  exact Nat.div_add_mod T D

theorem bucketSizes_getElem? (T D i : Nat) (hi : i < D) :
    (bucketSizes T D)[i]? = some (if i < T % D then T / D + 1 else T / D) := by
  unfold bucketSizes
  rw [List.getElem?_map, List.getElem?_range hi]
  rfl

theorem bucketSizes_mem (T D s : Nat) (hs : s ∈ bucketSizes T D) :
    s = T / D ∨ s = T / D + 1 := by
  unfold bucketSizes at hs
  rw [List.mem_map] at hs
  obtain ⟨i, _, hi⟩ := hs
  by_cases h : i < T % D <;> simp [h] at hi <;> omega

theorem mkBuckets_length (gs : List (List String)) (hrs idx : Nat) :
    (mkBuckets gs hrs idx).length = gs.length := by
  induction gs generalizing idx with
  | nil => simp [mkBuckets]
  | cons g rest ih => simp [mkBuckets, ih]

theorem mkBuckets_map_topics (gs : List (List String)) (hrs idx : Nat) :
    (mkBuckets gs hrs idx).map DayBucket.topics = gs := by
  induction gs generalizing idx with
  | nil => simp [mkBuckets]
  | cons g rest ih => simp [mkBuckets, ih]

theorem mkBuckets_map_dayIndex (gs : List (List String)) (hrs idx : Nat) :
    (mkBuckets gs hrs idx).map DayBucket.dayIndex = List.range' idx gs.length := by
  induction gs generalizing idx with
  | nil => simp [mkBuckets]
  | cons g rest ih => simp [mkBuckets, List.range'_succ, ih]

theorem allocate_ok (topics : List String) (days hoursPerDay : Int)
    (hd : 0 < days) (hh : 0 < hoursPerDay) :
    allocate topics days hoursPerDay =
      .ok (mkBuckets (splitTopics topics (bucketSizes topics.length days.toNat))
            hoursPerDay.toNat 1) := by
  unfold allocate
  rw [if_neg (by omega), if_neg (by omega)]

theorem allocate_sizes (topics : List String) (D : Nat) (hD : 0 < D)
    (hrs : Nat) :
    (mkBuckets (splitTopics topics (bucketSizes topics.length D)) hrs 1).map
        (fun b => b.topics.length) = bucketSizes topics.length D := by
  have hsum : (bucketSizes topics.length D).sum = topics.length :=
    bucketSizes_sum _ _ hD
  have h1 : (mkBuckets (splitTopics topics (bucketSizes topics.length D)) hrs 1).map
      (fun b => b.topics.length)
      = ((mkBuckets (splitTopics topics (bucketSizes topics.length D)) hrs 1).map
          DayBucket.topics).map List.length := by
    rw [List.map_map]
    rfl
  rw [h1, mkBuckets_map_topics, splitTopics_map_length]
  omega

/-- C1: For every topic sequence of length `T`, every positive day count `D`
with `T ≥ D` and positive `hoursPerDay`, `allocate` splits the topics into
`D` contiguous order-preserving groups: with `q = T div D` and `r = T mod D`
the first `r` buckets hold `q+1` topics and the rest hold `q`; the buckets
concatenate back to the original topic sequence (no topic dropped or
duplicated) and any two bucket sizes differ by at most 1. -/
theorem allocate_balanced_partition (topics : List String) (days hrsPD : Int)
    (hd : 0 < days) (hh : 0 < hrsPD) (hT : days.toNat ≤ topics.length) :
    ∃ bs, allocate topics days hrsPD = .ok bs ∧
      bs.length = days.toNat ∧
      (bs.map DayBucket.topics).flatten = topics ∧
      (∀ i, i < days.toNat →
        (bs.map fun b => b.topics.length)[i]? =
          some (if i < topics.length % days.toNat
                then topics.length / days.toNat + 1
                else topics.length / days.toNat)) ∧
      (∀ b ∈ bs, ∀ b' ∈ bs, b.topics.length ≤ b'.topics.length + 1) := by
  have hD : 0 < days.toNat := by omega
  refine ⟨_, allocate_ok topics days hrsPD hd hh, ?_, ?_, ?_, ?_⟩
  · rw [mkBuckets_length, splitTopics_length, bucketSizes_length]
  · rw [mkBuckets_map_topics, splitTopics_flatten, bucketSizes_sum _ _ hD,
      List.take_length]
  · intro i hi
    rw [allocate_sizes topics days.toNat hD, bucketSizes_getElem? _ _ _ hi]
  · intro b hb b' hb'
    have h1 : b.topics.length ∈ bucketSizes topics.length days.toNat := by
      rw [← allocate_sizes topics days.toNat hD hrsPD.toNat]
      exact List.mem_map_of_mem _ hb
    have h2 : b'.topics.length ∈ bucketSizes topics.length days.toNat := by
      rw [← allocate_sizes topics days.toNat hD hrsPD.toNat]
      exact List.mem_map_of_mem _ hb'
    rcases bucketSizes_mem _ _ _ h1 with h | h <;>
      rcases bucketSizes_mem _ _ _ h2 with h' | h' <;> omega

theorem allocate_balanced_partition_witness :
    (0 : Int) < 3 ∧ (0 : Int) < 2 ∧ (3 : Int).toNat ≤ 5 ∧
      ∃ bs, allocate ["Lists", "Tuples", "Sets", "Dicts", "Loops"] 3 2 = .ok bs ∧
        bs.length = (3 : Int).toNat ∧
        (bs.map DayBucket.topics).flatten = ["Lists", "Tuples", "Sets", "Dicts", "Loops"] ∧
        (∀ i, i < (3 : Int).toNat →
          (bs.map fun b => b.topics.length)[i]? =
            some (if i < (5 : Nat) % (3 : Int).toNat
                  then 5 / (3 : Int).toNat + 1 else 5 / (3 : Int).toNat)) ∧
        (∀ b ∈ bs, ∀ b' ∈ bs, b.topics.length ≤ b'.topics.length + 1) :=
  ⟨by decide, by decide, by decide,
    allocate_balanced_partition ["Lists", "Tuples", "Sets", "Dicts", "Loops"] 3 2
      (by decide) (by decide) (by decide)⟩

/-- C2: For every topic sequence and positive `days` and `hoursPerDay`,
`allocate` returns exactly `days` buckets whose `dayIndex` values, read in
order, are `1, 2, ..., days` with no gaps or repeats. -/
theorem allocate_bucket_count (topics : List String) (days hrsPD : Int)
    (hd : 0 < days) (hh : 0 < hrsPD) :
    ∃ bs, allocate topics days hrsPD = .ok bs ∧ bs.length = days.toNat ∧
      bs.map DayBucket.dayIndex = List.range' 1 days.toNat := by
  refine ⟨_, allocate_ok topics days hrsPD hd hh, ?_, ?_⟩
  · rw [mkBuckets_length, splitTopics_length, bucketSizes_length]
  · rw [mkBuckets_map_dayIndex, splitTopics_length, bucketSizes_length]

theorem allocate_bucket_count_witness :
    (0 : Int) < 3 ∧ (0 : Int) < 1 ∧
      ∃ bs, allocate ["Regex"] 3 1 = .ok bs ∧ bs.length = (3 : Int).toNat ∧
        bs.map DayBucket.dayIndex = List.range' 1 (3 : Int).toNat :=
  ⟨by decide, by decide, allocate_bucket_count ["Regex"] 3 1 (by decide) (by decide)⟩

/-- C3: `allocate` fails exactly when `days` or `hoursPerDay` is not
positive, every failure is an `InvalidArgument`, `days = 0` yields the
`InvalidArgument` "days must be positive" failure with no buckets, and any
topic count (zero topics, fewer or more topics than days) with positive
`days` and `hoursPerDay` succeeds. -/
theorem allocate_invalid_argument_iff (topics : List String) (days hrsPD : Int) :
    ((∃ e, allocate topics days hrsPD = .error e) ↔ days ≤ 0 ∨ hrsPD ≤ 0) ∧
    (∀ e, allocate topics days hrsPD = .error e →
      ∃ msg, e = .invalidArgument msg) ∧
    allocate topics 0 hrsPD = .error (.invalidArgument "days must be positive") ∧
    (0 < days → 0 < hrsPD → ∃ bs, allocate topics days hrsPD = .ok bs) := by
  refine ⟨⟨?_, ?_⟩, ?_, ?_, ?_⟩
  · intro ⟨e, he⟩
    by_contra hpos
    push_neg at hpos
    rw [allocate_ok topics days hrsPD (by omega) (by omega)] at he
    exact absurd he (by simp)
  · intro hbad
    unfold allocate
    rcases hbad with h | h
    · exact ⟨_, by rw [if_pos h]⟩
    · by_cases hd : days ≤ 0
      · exact ⟨_, by rw [if_pos hd]⟩
      · exact ⟨_, by rw [if_neg hd, if_pos h]⟩
  · intro e he
    unfold allocate at he
    split at he
    · exact ⟨_, by injection he with h; rw [← h]⟩
    · split at he
      · exact ⟨_, by injection he with h; rw [← h]⟩
      · exact absurd he (by simp)
  · unfold allocate
    rw [if_pos (by omega : (0 : Int) ≤ 0)]
  · intro hd hh
    exact ⟨_, allocate_ok topics days hrsPD hd hh⟩

theorem allocate_invalid_argument_iff_witness :
    (0 : Int) < 4 ∧ (0 : Int) < 2 ∧ ∃ bs, allocate ["a"] 4 2 = .ok bs :=
  ⟨by decide, by decide,
    (allocate_invalid_argument_iff ["a"] 4 2).2.2.2 (by decide) (by decide)⟩

/-- A civil calendar date.
Modelled from the spec: section 4.2 works with civil dates (no time zone,
no time of day), the projector source being absent from src/. -/
structure CivilDate where
  year : Int
  month : Nat
  day : Nat
deriving DecidableEq, Repr

/-- Proleptic Gregorian leap-year rule. -/
def isLeap (y : Int) : Bool :=
  (y % 4 == 0 && y % 100 != 0) || (y % 400 == 0)

/-- Number of days of a month in the proleptic Gregorian calendar. -/
def daysInMonth (y : Int) (m : Nat) : Nat :=
  if m = 2 then (if isLeap y then 29 else 28)
  else if m = 4 ∨ m = 6 ∨ m = 9 ∨ m = 11 then 30
  else 31

/-- Successor of a civil date in the proleptic Gregorian calendar.
Modelled from the spec: "date = startDate + (i - 1) calendar days using
proleptic Gregorian arithmetic" (section 4.2, the projector source being
absent). -/
def nextDay (d : CivilDate) : CivilDate :=
  if d.day < daysInMonth d.year d.month then ⟨d.year, d.month, d.day + 1⟩
  else if d.month < 12 then ⟨d.year, d.month + 1, 1⟩
  else ⟨d.year + 1, 1, 1⟩

/-- Add `n` calendar days to a civil date. -/
def addDays (d : CivilDate) (n : Nat) : CivilDate :=
  nextDay^[n] d

/-- A day bucket resolved to a calendar date.
Modelled from the spec: section 3's `ScheduledDay`. -/
structure ScheduledDay where
  bucket : DayBucket
  date : CivilDate
deriving DecidableEq, Repr

/-- The Calendar Projector.
Modelled from the spec: section 4.2's contract
`project(buckets, startDate) → ordered sequence of ScheduledDay`, mapping
the bucket at `dayIndex = i` to `startDate + (i - 1)` calendar days (the
projector source `planner/ai_service.py` being absent from src/). -/
def project (buckets : List DayBucket) (startDate : CivilDate) :
    List ScheduledDay :=
  buckets.map (fun b => ⟨b, addDays startDate (b.dayIndex - 1)⟩)

/-- C4: `project` maps the bucket at `dayIndex = i` to
`startDate + (i - 1)` calendar days; when the bucket list carries the
contiguous day indices `1..n`, the first output entry is dated exactly
`startDate` and each later entry is dated exactly one civil day after its
predecessor. -/
theorem project_dates (bs : List DayBucket) (start : CivilDate) :
    (∀ sd ∈ project bs start, sd.date = addDays start (sd.bucket.dayIndex - 1)) ∧
    (bs.map DayBucket.dayIndex = List.range' 1 bs.length →
      (∀ sd, (project bs start)[0]? = some sd → sd.date = start) ∧
      (∀ k sd sd', (project bs start)[k]? = some sd →
        (project bs start)[k + 1]? = some sd' → sd'.date = nextDay sd.date)) := by
  have hidx : ∀ (hix : bs.map DayBucket.dayIndex = List.range' 1 bs.length)
      (k : Nat) (b : DayBucket), bs[k]? = some b → b.dayIndex = k + 1 := by
    intro hix k b hk
    have hklt : k < bs.length := by
      by_contra hge
      rw [List.getElem?_eq_none (by omega)] at hk
      exact absurd hk (by simp)
    have h1 : (bs.map DayBucket.dayIndex)[k]? = some b.dayIndex := by
      rw [List.getElem?_map, hk]
      rfl
    rw [hix, List.getElem?_range' 1 1 hklt] at h1
    injection h1 with h1
    omega
  refine ⟨?_, fun hix => ⟨?_, ?_⟩⟩
  · intro sd hsd
    unfold project at hsd
    rw [List.mem_map] at hsd
    obtain ⟨b, _, rfl⟩ := hsd
    rfl
  · intro sd hsd
    unfold project at hsd
    rw [List.getElem?_map] at hsd
    cases hb : bs[0]? with
    | none => rw [hb] at hsd; exact absurd hsd (by simp)
    | some b =>
        rw [hb] at hsd
        injection hsd with hsd
        have hb1 : b.dayIndex = 1 := hidx hix 0 b hb
        rw [← hsd]
        simp [hb1, addDays]
  · intro k sd sd' hsd hsd'
    unfold project at hsd hsd'
    rw [List.getElem?_map] at hsd hsd'
    cases hb : bs[k]? with
    | none => rw [hb] at hsd; exact absurd hsd (by simp)
    | some b =>
        cases hb' : bs[k + 1]? with
        | none => rw [hb'] at hsd'; exact absurd hsd' (by simp)
        | some b' =>
            rw [hb] at hsd
            rw [hb'] at hsd'
            injection hsd with hsd
            injection hsd' with hsd'
            have h1 : b.dayIndex = k + 1 := hidx hix k b hb
            have h2 : b'.dayIndex = k + 2 := hidx hix (k + 1) b' hb'
            rw [← hsd, ← hsd']
            simp only [h1, h2, Nat.add_sub_cancel]
            show addDays start (k + 1) = nextDay (addDays start k)
            unfold addDays
            exact Function.iterate_succ_apply' nextDay k start

theorem project_dates_witness :
    (List.map DayBucket.dayIndex [⟨1, ["a"], 2⟩, ⟨2, ["b"], 2⟩] =
      List.range' 1 (List.length [(⟨1, ["a"], 2⟩ : DayBucket), ⟨2, ["b"], 2⟩])) ∧
    (⟨⟨2, ["b"], 2⟩, ⟨2025, 1, 2⟩⟩ : ScheduledDay).date =
      nextDay (⟨⟨1, ["a"], 2⟩, ⟨2025, 1, 1⟩⟩ : ScheduledDay).date :=
  ⟨by decide,
    ((project_dates [⟨1, ["a"], 2⟩, ⟨2, ["b"], 2⟩] ⟨2025, 1, 1⟩).2 (by decide)).2 0
      ⟨⟨1, ["a"], 2⟩, ⟨2025, 1, 1⟩⟩ ⟨⟨2, ["b"], 2⟩, ⟨2025, 1, 2⟩⟩
      (by decide) (by decide)⟩

/-- Decimal digit value of a character, `none` for non-digits. -/
def digitVal (c : Char) : Option Nat :=
  if '0' ≤ c ∧ c ≤ '9' then some (c.toNat - '0'.toNat) else none

/-- Strict `YYYY-MM-DD` parser of the engine boundary.
Modelled from the spec: section 4.2 — parsing of a caller-supplied date
string uses a strict `YYYY-MM-DD` format and fails with `InvalidArgument`
on any other shape, including out-of-range month/day values (the engine
source being absent from src/). -/
def parseDate (s : String) : Except AllocError CivilDate :=
  match s.data with
  | [y1, y2, y3, y4, c1, m1, m2, c2, d1, d2] =>
    if c1 = '-' ∧ c2 = '-' then
      match digitVal y1, digitVal y2, digitVal y3, digitVal y4,
            digitVal m1, digitVal m2, digitVal d1, digitVal d2 with
      | some a, some b, some c, some d, some e, some f, some g, some h =>
        if 1 ≤ 10 * e + f ∧ 10 * e + f ≤ 12 ∧ 1 ≤ 10 * g + h ∧
            10 * g + h ≤ daysInMonth (Int.ofNat (1000 * a + 100 * b + 10 * c + d)) (10 * e + f)
        then .ok ⟨Int.ofNat (1000 * a + 100 * b + 10 * c + d), 10 * e + f, 10 * g + h⟩
        else .error (.invalidArgument "invalid date format")
      | _, _, _, _, _, _, _, _ => .error (.invalidArgument "invalid date format")
    else .error (.invalidArgument "invalid date format")
  | _ => .error (.invalidArgument "invalid date format")

/-- The engine's request boundary: resolve the start date (defaulting to
today when omitted), then allocate, then project.
Modelled from the spec: sections 4.2 and 6 — `startDate` defaults to the
current civil date when omitted, a malformed caller-supplied date fails
with `InvalidArgument`, and validation happens before any bucket is
produced (the engine source being absent from src/). -/
def handleRequest (topics : List String) (days hoursPerDay : Int)
    (startDate : Option String) (today : CivilDate) :
    Except AllocError (List ScheduledDay) :=
  match (match startDate with | none => Except.ok today | some s => parseDate s) with
  | .error e => .error e
  | .ok start =>
    match allocate topics days hoursPerDay with
    | .error e => .error e
    | .ok bs => .ok (project bs start)

theorem digitVal_sound (c : Char) (n : Nat) (h : digitVal c = some n) :
    '0' ≤ c ∧ c ≤ '9' := by
  unfold digitVal at h
  split at h
  · assumption
  · exact absurd h (by simp)

theorem parseDate_sound (s : String) (dt : CivilDate)
    (hok : parseDate s = .ok dt) :
    s.length = 10 ∧ s.data[4]? = some '-' ∧ s.data[7]? = some '-' ∧
    (∀ i ∈ ([0, 1, 2, 3, 5, 6, 8, 9] : List Nat),
      ∃ c, s.data[i]? = some c ∧ '0' ≤ c ∧ c ≤ '9') ∧
    1 ≤ dt.month ∧ dt.month ≤ 12 ∧ 1 ≤ dt.day ∧
    dt.day ≤ daysInMonth dt.year dt.month := by
  have hlen : s.length = s.data.length := rfl
  unfold parseDate at hok
  split at hok
  · rename_i y1 y2 y3 y4 c1 m1 m2 c2 d1 d2 heq
    split at hok
    · rename_i hdash
      split at hok
      · rename_i a b c d e f g h ha hb hc hd he hf hg hh
        split at hok
        · rename_i hr
          injection hok with hok
          subst hok
          refine ⟨by rw [hlen, heq]; rfl, ?_, ?_, ?_, hr.1, hr.2.1, hr.2.2.1, hr.2.2.2⟩
          · rw [heq, hdash.1]; rfl
          · rw [heq, hdash.2]; rfl
          · intro i hi
            simp only [List.mem_cons, List.not_mem_nil, or_false] at hi
            rcases hi with rfl | rfl | rfl | rfl | rfl | rfl | rfl | rfl
            · exact ⟨y1, by rw [heq]; rfl,
                (digitVal_sound _ _ ha).1, (digitVal_sound _ _ ha).2⟩
            · exact ⟨y2, by rw [heq]; rfl,
                (digitVal_sound _ _ hb).1, (digitVal_sound _ _ hb).2⟩
            · exact ⟨y3, by rw [heq]; rfl,
                (digitVal_sound _ _ hc).1, (digitVal_sound _ _ hc).2⟩
            · exact ⟨y4, by rw [heq]; rfl,
                (digitVal_sound _ _ hd).1, (digitVal_sound _ _ hd).2⟩
            · exact ⟨m1, by rw [heq]; rfl,
                (digitVal_sound _ _ he).1, (digitVal_sound _ _ he).2⟩
            · exact ⟨m2, by rw [heq]; rfl,
                (digitVal_sound _ _ hf).1, (digitVal_sound _ _ hf).2⟩
            · exact ⟨d1, by rw [heq]; rfl,
                (digitVal_sound _ _ hg).1, (digitVal_sound _ _ hg).2⟩
            · exact ⟨d2, by rw [heq]; rfl,
                (digitVal_sound _ _ hh).1, (digitVal_sound _ _ hh).2⟩
        · exact absurd hok (by simp)
      · exact absurd hok (by simp)
    · exact absurd hok (by simp)
  · exact absurd hok (by simp)

/-- C6: a caller-supplied `startDate` string parses only when it has the
strict ten-character `YYYY-MM-DD` shape with in-range month and day
values; the out-of-range string "2025-13-01" fails with `InvalidArgument`
("invalid date format"), and through the request boundary this failure
occurs for every choice of topics, days and hoursPerDay. -/
theorem parseDate_strict :
    (∀ s dt, parseDate s = .ok dt →
      s.length = 10 ∧ s.data[4]? = some '-' ∧ s.data[7]? = some '-' ∧
      (∀ i ∈ ([0, 1, 2, 3, 5, 6, 8, 9] : List Nat),
        ∃ c, s.data[i]? = some c ∧ '0' ≤ c ∧ c ≤ '9') ∧
      1 ≤ dt.month ∧ dt.month ≤ 12 ∧ 1 ≤ dt.day ∧
      dt.day ≤ daysInMonth dt.year dt.month) ∧
    parseDate "2025-13-01" = .error (.invalidArgument "invalid date format") ∧
    (∀ topics (days hrsPD : Int) today,
      handleRequest topics days hrsPD (some "2025-13-01") today =
        .error (.invalidArgument "invalid date format")) := by
  refine ⟨parseDate_sound, rfl, ?_⟩
  intro topics days hrsPD today
  rfl

theorem parseDate_strict_witness :
    parseDate "2025-02-28" = .ok ⟨2025, 2, 28⟩ ∧
    ("2025-02-28" : String).length = 10 ∧
    1 ≤ (⟨2025, 2, 28⟩ : CivilDate).month ∧
    (⟨2025, 2, 28⟩ : CivilDate).day ≤
      daysInMonth (⟨2025, 2, 28⟩ : CivilDate).year (⟨2025, 2, 28⟩ : CivilDate).month :=
  ⟨rfl, (parseDate_strict.1 "2025-02-28" ⟨2025, 2, 28⟩ rfl).1,
    (parseDate_strict.1 "2025-02-28" ⟨2025, 2, 28⟩ rfl).2.2.2.2.1,
    (parseDate_strict.1 "2025-02-28" ⟨2025, 2, 28⟩ rfl).2.2.2.2.2.2.2⟩

/-- Goal record as read by the `ai_generate_plan` view
(src/planner/views.py lines 260-267): the view reads `goal.title`,
`goal.topics` and `goal.days`.  (models.py's `Goal` declares no `topics`
or `days` column; the record models the attributes the view dereferences,
with `days` optional so that the view's `or 5` fallback on a missing /
falsy value is observable.) -/
structure AiGoal where
  id : Nat
  title : String
  topics : String
  days : Option Nat
deriving DecidableEq, Repr

/-- Python's `goal.days or 5` (src/planner/views.py line 267, commented
"default fallback"): `None` and `0` are falsy, anything else is kept. -/
def orDefaultDays (d : Option Nat) : Nat :=
  match d with
  | none => 5
  | some n => if n = 0 then 5 else n

/-- Python's `str.strip()` on the model's character lists. -/
def pyStrip (s : String) : String :=
  ⟨((s.data.dropWhile Char.isWhitespace).reverse.dropWhile Char.isWhitespace).reverse⟩

/-- The AI prompt f-string of `ai_generate_plan`
(src/planner/views.py lines 277-291). -/
def buildPrompt (title topics : String) (days : Nat) : String :=
  "\n    Create a " ++ toString days ++ "-day structured study plan.\n\n    Title: "
    ++ title ++ "\n    Topics: " ++ topics
    ++ "\n\n    Format exactly like this:\n\n    Day 1: Topic\n    Day 2: Topic\n    ...\n    Day "
    ++ toString days ++ ": Final revision or project\n\n    Do NOT give extra explanation.\n    "

/-- An HTTP JSON response of the function-based views (status plus the
payload field that varies). -/
inductive JsonResp where
  | json (status : Nat) (body : String)
deriving DecidableEq, Repr

/-- The `ai_generate_plan` view (src/planner/views.py lines 248-303):
reject non-POST with 405, look the goal up by id (404 when absent), apply
the `goal.days or 5` fallback, fail 500 without an API key, otherwise
return 200 with the stripped text produced by the external Gemini model
for the built prompt.  The external service is modelled as the function
`llm` from prompt to response text. -/
def ai_generate_plan (goals : List AiGoal) (method : String) (goal_id : Nat)
    (apiKey : Option String) (llm : String → String) : JsonResp :=
  if method ≠ "POST" then .json 405 "Only POST allowed"
  else
    match goals.find? (fun g => g.id == goal_id) with
    | none => .json 404 "Goal not found"
    | some goal =>
      match apiKey with
      | none => .json 500 "Gemini API key missing"
      | some _ =>
          .json 200 (pyStrip (llm (buildPrompt goal.title goal.topics
            (orDefaultDays goal.days))))

/-- C5 (amended): the pure engine pipeline is a mathematical function of
its arguments — two invocations on identical arguments give identical
output — and `ai_generate_plan` is deterministic only once the external
Gemini response function is fixed: its output coincides for any two
external services that answer every prompt identically. -/
theorem schedule_generation_deterministic (topics : List String)
    (days hrsPD : Int) (sd : Option String) (today : CivilDate)
    (goals : List AiGoal) (method : String) (goal_id : Nat)
    (apiKey : Option String) (llm llm' : String → String)
    (hllm : ∀ p, llm p = llm' p) :
    handleRequest topics days hrsPD sd today = handleRequest topics days hrsPD sd today ∧
    ai_generate_plan goals method goal_id apiKey llm =
      ai_generate_plan goals method goal_id apiKey llm' := by
  refine ⟨rfl, ?_⟩
  unfold ai_generate_plan
  simp only [hllm]

theorem schedule_generation_deterministic_witness :
    handleRequest ["a"] 1 1 none ⟨2025, 1, 1⟩ = handleRequest ["a"] 1 1 none ⟨2025, 1, 1⟩ ∧
    ai_generate_plan [] "GET" 0 none (fun _ => "x") =
      ai_generate_plan [] "GET" 0 none (fun _ => "x") :=
  schedule_generation_deterministic ["a"] 1 1 none ⟨2025, 1, 1⟩ [] "GET" 0 none
    (fun _ => "x") (fun _ => "x") (fun _ => rfl)

/-- C5 counterexample: with every request-level argument fixed (goals,
method, goal id, API key), two invocations of `ai_generate_plan` that
observe different responses from the external Gemini service produce
different outputs, so the endpoint's output is not determined by its
request arguments alone. -/
theorem ai_generate_plan_depends_on_service :
    ai_generate_plan [⟨1, "Python", "Lists", some 3⟩] "POST" 1 (some "key")
        (fun _ => "Day 1: Lists") ≠
      ai_generate_plan [⟨1, "Python", "Lists", some 3⟩] "POST" 1 (some "key")
        (fun _ => "Day 1: Sets") := by
  intro h
  have h200 : ai_generate_plan [⟨1, "Python", "Lists", some 3⟩] "POST" 1 (some "key")
      (fun _ => "Day 1: Lists") = .json 200 "Day 1: Lists" := rfl
  have h200' : ai_generate_plan [⟨1, "Python", "Lists", some 3⟩] "POST" 1 (some "key")
      (fun _ => "Day 1: Sets") = .json 200 "Day 1: Sets" := rfl
  rw [h200, h200'] at h
  injection h with h1 h2
  exact absurd h2 (by decide)

/-- C7 counterexample: a stored day count of 0 (and likewise a missing
one) is silently replaced by the positive default 5 at
src/planner/views.py line 267 (`days = goal.days or 5`), and the
`ai_generate_plan` request then succeeds with a 200 response instead of
surfacing a typed failure. -/
theorem days_zero_silently_defaulted :
    orDefaultDays (some 0) = 5 ∧ orDefaultDays none = 5 ∧
    ai_generate_plan [⟨1, "Python", "Lists", some 0⟩] "POST" 1 (some "key")
      (fun _ => "ok") = .json 200 "ok" :=
  ⟨rfl, rfl, rfl⟩

/-- C7 (amended): inside the allocation engine, every failing input is
rejected by validation before any allocation work — the result is a typed
`InvalidArgument` failure and no bucket or scheduled day is ever emitted;
the `ai_generate_plan` view, however, silently replaces a missing or
falsy stored day count with the default 5. -/
theorem validation_eager_no_silent_defaults (topics : List String)
    (days hrsPD : Int) (hbad : days ≤ 0 ∨ hrsPD ≤ 0) :
    (∃ msg, allocate topics days hrsPD = .error (.invalidArgument msg)) ∧
    (∀ bs, allocate topics days hrsPD ≠ .ok bs) ∧
    (∀ today sds, handleRequest topics days hrsPD none today ≠ .ok sds) ∧
    orDefaultDays none = 5 ∧ orDefaultDays (some 0) = 5 := by
  have herr : ∃ msg, allocate topics days hrsPD = .error (.invalidArgument msg) := by
    unfold allocate
    rcases hbad with h | h
    · exact ⟨_, by rw [if_pos h]⟩
    · by_cases hd : days ≤ 0
      · exact ⟨_, by rw [if_pos hd]⟩
      · exact ⟨_, by rw [if_neg hd, if_pos h]⟩
  obtain ⟨msg, he⟩ := herr
  refine ⟨⟨msg, he⟩, ?_, ?_, rfl, rfl⟩
  · intro bs hok
    rw [he] at hok
    exact absurd hok (by simp)
  · intro today sds hok
    unfold handleRequest at hok
    rw [he] at hok
    exact absurd hok (by simp)

theorem validation_eager_no_silent_defaults_witness :
    ((-2 : Int) ≤ 0 ∨ (3 : Int) ≤ 0) ∧
    (∃ msg, allocate [] (-2) 3 = .error (.invalidArgument msg)) :=
  ⟨by decide, (validation_eager_no_silent_defaults [] (-2) 3 (by decide)).1⟩

/-- The `Goal` model (src/planner/models.py): the fields that carry
values (auto-managed timestamps and the date column are irrelevant to the
status computation and omitted). -/
structure Goal where
  title : String
  description : String
  total_hours : Nat
  is_completed : Bool
deriving DecidableEq, Repr

/-- `Goal.status` property (src/planner/models.py lines 30-33). -/
def Goal.status (g : Goal) : String :=
  if g.is_completed then "Completed" else "In Progress"

/-- `GoalSerializer.get_status` (src/planner/serializers.py lines 25-26). -/
def GoalSerializer.get_status (g : Goal) : String :=
  if g.is_completed then "Completed" else "In Progress"

/-- C8: the serializer's status computation and the model's status
property agree on every goal: both answer "Completed" exactly when
`is_completed` is set and "In Progress" otherwise. -/
theorem get_status_eq_status (g : Goal) :
    GoalSerializer.get_status g = Goal.status g ∧
    (g.is_completed = true → GoalSerializer.get_status g = "Completed") ∧
    (g.is_completed = false → GoalSerializer.get_status g = "In Progress") := by
  refine ⟨rfl, ?_, ?_⟩ <;> intro h <;> simp [GoalSerializer.get_status, h]

theorem get_status_eq_status_witness :
    GoalSerializer.get_status ⟨"Python", "basics", 10, true⟩ = "Completed" :=
  (get_status_eq_status ⟨"Python", "basics", 10, true⟩).2.1 rfl

/-- The `UserRegistration` record created by `register_user`
(src/planner/views.py lines 333-337). -/
structure UserRegistration where
  id : Nat
  name : String
  email : String
  password : String
deriving DecidableEq, Repr

/-- The user table together with the id the next insert receives. -/
structure RegState where
  users : List UserRegistration
  nextId : Nat
deriving DecidableEq, Repr

/-- Python truthiness of `data.get(field)` for a string field: `None`
(missing) and the empty string are falsy. -/
def truthy : Option String → Bool
  | none => false
  | some s => !(s == "")

/-- A parsed registration request body (method plus the three fields the
view reads; a missing key is `none`, matching `dict.get`). -/
structure RegRequest where
  method : String
  name : Option String
  email : Option String
  password : Option String
deriving DecidableEq, Repr

/-- The record `register_user` inserts for a request. -/
def newUser (st : RegState) (r : RegRequest) : UserRegistration :=
  ⟨st.nextId, r.name.getD "", r.email.getD "", r.password.getD ""⟩

/-- The `register_user` view (src/planner/views.py lines 314-345):
non-POST gives 405; a missing or empty name, email or password gives 400
("All fields are required"); an already-registered email gives 400
("Email already registered"); otherwise the user row is created and 201
returned.  The result is the response status paired with the state after
the call. -/
def register_user (st : RegState) (r : RegRequest) : Nat × RegState :=
  if r.method ≠ "POST" then (405, st)
  else if !truthy r.name || !truthy r.email || !truthy r.password then (400, st)
  else if st.users.any (fun u => u.email == r.email.getD "") then (400, st)
  else (201, ⟨st.users ++ [newUser st r], st.nextId + 1⟩)

/-- C9: `register_user` inserts a new row exactly when the request is a
POST supplying non-empty name, email and password whose email is not yet
registered; a POST failing those checks answers 400 and a non-POST
answers 405, in both cases leaving the user table unchanged; and the
endpoint preserves distinctness of registered emails. -/
theorem register_user_correct (st : RegState) (r : RegRequest) :
    (register_user st r = (201, ⟨st.users ++ [newUser st r], st.nextId + 1⟩) ↔
      (r.method = "POST" ∧ truthy r.name = true ∧ truthy r.email = true ∧
        truthy r.password = true ∧ ∀ u ∈ st.users, u.email ≠ r.email.getD "")) ∧
    ((r.method = "POST" ∧ ¬(truthy r.name = true ∧ truthy r.email = true ∧
        truthy r.password = true ∧ ∀ u ∈ st.users, u.email ≠ r.email.getD "")) →
      register_user st r = (400, st)) ∧
    (r.method ≠ "POST" → register_user st r = (405, st)) ∧
    ((st.users.map (fun u => u.email)).Nodup →
      ((register_user st r).2.users.map (fun u => u.email)).Nodup) := by
  unfold register_user
  split_ifs with h1 h2 h3
  · -- non-POST: (405, st)
    refine ⟨⟨fun he => ?_, fun hr => absurd hr.1 h1⟩,
      fun hr => absurd hr.1 h1, fun _ => rfl, fun hn => hn⟩
    exact absurd (congrArg Prod.fst he) (by simp)
  · -- POST, some field falsy: (400, st)
    have hp : r.method = "POST" := not_not.mp h1
    refine ⟨⟨fun he => ?_, fun hr => ?_⟩, fun _ => rfl, fun hne => absurd hp hne,
      fun hn => hn⟩
    · exact absurd (congrArg Prod.fst he) (by simp)
    · rw [hr.2.1, hr.2.2.1, hr.2.2.2.1] at h2
      exact absurd h2 (by simp)
  · -- POST, fields present, email already registered: (400, st)
    have hp : r.method = "POST" := not_not.mp h1
    rw [List.any_eq_true] at h3
    obtain ⟨u, hu, hue⟩ := h3
    refine ⟨⟨fun he => ?_, fun hr => ?_⟩, fun _ => rfl, fun hne => absurd hp hne,
      fun hn => hn⟩
    · exact absurd (congrArg Prod.fst he) (by simp)
    · exact absurd (beq_iff_eq.mp hue) (hr.2.2.2.2 u hu)
  · -- POST, fields present, fresh email: insert
    have hp : r.method = "POST" := not_not.mp h1
    simp only [Bool.or_eq_true, Bool.not_eq_true', not_or, Bool.not_eq_false] at h2
    have hall : ∀ u ∈ st.users, u.email ≠ r.email.getD "" := by
      intro u hu heq
      exact h3 (List.any_eq_true.mpr ⟨u, hu, beq_iff_eq.mpr heq⟩)
    refine ⟨⟨fun _ => ⟨hp, h2.1.1, h2.1.2, h2.2, hall⟩, fun _ => rfl⟩,
      fun hr => absurd ⟨h2.1.1, h2.1.2, h2.2, hall⟩ hr.2,
      fun hne => absurd hp hne, fun hn => ?_⟩
    simp only [List.map_append, List.map_cons, List.map_nil]
    rw [List.nodup_append]
    refine ⟨hn, List.nodup_singleton _, ?_⟩
    intro a ha hb
    simp only [List.mem_singleton] at hb
    rw [List.mem_map] at ha
    obtain ⟨u, hu, rfl⟩ := ha
    exact hall u hu (by rw [hb]; rfl)

theorem register_user_correct_witness :
    register_user ⟨[], 0⟩ ⟨"POST", some "Alice", some "a@x.com", some "pw"⟩ =
      (201, ⟨[⟨0, "Alice", "a@x.com", "pw"⟩], 1⟩) :=
  (register_user_correct ⟨[], 0⟩ ⟨"POST", some "Alice", some "a@x.com", some "pw"⟩).1.mpr
    ⟨rfl, rfl, rfl, rfl, by simp⟩

/-- The JWT payload issued by `login_user` (src/planner/views.py lines
376-381); times are in seconds. -/
structure JwtPayload where
  user_id : Nat
  email : String
  exp : Nat
  iat : Nat
deriving DecidableEq, Repr

/-- A parsed login request body. -/
structure LoginRequest where
  method : String
  email : Option String
  password : Option String
deriving DecidableEq, Repr

/-- Outcome of `login_user`: an error response, or a 200 response
carrying the token payload and the `auth_token` cookie's `max_age`. -/
inductive LoginResult where
  | err (status : Nat) (msg : String)
  | ok (user_id : Nat) (name : String) (token : JwtPayload) (cookieMaxAge : Nat)
deriving DecidableEq, Repr

/-- The `login_user` view (src/planner/views.py lines 352-406): non-POST
gives 405; missing email or password gives 400; the user is looked up by
email with Django's `.get` (no row: 400 "Invalid email or password";
several rows: the `MultipleObjectsReturned` exception is caught by the
blanket handler as a 500); a raw string comparison of the stored
plaintext password follows (mismatch: the same 400 message); on success a
token with `exp = iat + 30 minutes` is issued and the cookie max age is
`1 * 60 * 60` seconds. -/
def authenticate (found : List UserRegistration) (pw : String) (now : Nat) :
    LoginResult :=
  match found with
  | [] => .err 400 "Invalid email or password"
  | [u] =>
      if u.password ≠ pw then .err 400 "Invalid email or password"
      else .ok u.id u.name ⟨u.id, u.email, now + 30 * 60, now⟩ (1 * 60 * 60)
  | _ => .err 500 "get() returned more than one UserRegistration"

def login_user (users : List UserRegistration) (r : LoginRequest) (now : Nat) :
    LoginResult :=
  if r.method ≠ "POST" then .err 405 "Only POST allowed"
  else if !truthy r.email || !truthy r.password then
    .err 400 "Email and password are required"
  else
    authenticate (users.filter (fun u => u.email == r.email.getD ""))
      (r.password.getD "") now

theorem truthy_iff (o : Option String) :
    truthy o = true ↔ ∃ s, o = some s ∧ s ≠ "" := by
  cases o with
  | none => simp [truthy]
  | some s => simp [truthy]

theorem filter_email_nodup (users : List UserRegistration) (e : String)
    (hnodup : (users.map (fun u => u.email)).Nodup) :
    users.filter (fun u => u.email == e) = [] ∨
    ∃ u, users.filter (fun u => u.email == e) = [u] ∧ u ∈ users ∧ u.email = e := by
  induction users with
  | nil => left; rfl
  | cons v vs ih =>
      simp only [List.map_cons, List.nodup_cons] at hnodup
      obtain ⟨hv, hvs⟩ := hnodup
      by_cases hve : v.email = e
      · right
        refine ⟨v, ?_, List.mem_cons_self _ _, hve⟩
        rw [List.filter_cons_of_pos (by simp [hve])]
        have : vs.filter (fun u => u.email == e) = [] := by
          rw [List.filter_eq_nil_iff]
          intro u hu hbe
          rw [beq_iff_eq] at hbe
          exact hv (by rw [show v.email = u.email from hve.trans hbe.symm]
                       exact List.mem_map_of_mem _ hu)
        rw [this]
      · rw [List.filter_cons_of_neg (by simp [hve])]
        rcases ih hvs with h | ⟨u, hu, hmem, hue⟩
        · left; exact h
        · right; exact ⟨u, hu, List.mem_cons_of_mem _ hmem, hue⟩

/-- C10 (amended): among POST requests against a user table whose emails
are distinct and whose rows were registered with non-empty email and
password, `login_user` answers 200 with a JWT exactly when some
registered user matches both the request email and the stored plaintext
password; unknown email and wrong password produce the identical
400 response "Invalid email or password"; and every issued token has
`exp` exactly 30 minutes after `iat` while the cookie max age is 3600
seconds.  (Non-POST requests are answered 405 regardless of
credentials.) -/
theorem login_user_correct (users : List UserRegistration) (r : LoginRequest)
    (now : Nat) (hnodup : (users.map (fun u => u.email)).Nodup)
    (hfields : ∀ u ∈ users, u.email ≠ "" ∧ u.password ≠ "")
    (hpost : r.method = "POST") :
    ((∃ uid nm tok age, login_user users r now = .ok uid nm tok age) ↔
      ∃ u ∈ users, r.email = some u.email ∧ r.password = some u.password) ∧
    (∀ uid nm tok age, login_user users r now = .ok uid nm tok age →
      tok.exp = tok.iat + 30 * 60 ∧ tok.iat = now ∧ age = 3600) ∧
    ((¬∃ u ∈ users, r.email = some u.email ∧ r.password = some u.password) →
      truthy r.email = true → truthy r.password = true →
      login_user users r now = .err 400 "Invalid email or password") := by
  unfold login_user
  rw [if_neg (by simp [hpost])]
  by_cases htr : (!truthy r.email || !truthy r.password) = true
  · rw [if_pos htr]
    refine ⟨⟨fun ⟨uid, nm, tok, age, he⟩ => absurd he (by simp),
      fun ⟨u, hu, he, hp⟩ => ?_⟩,
      fun uid nm tok age he => absurd he (by simp),
      fun _ hte htp => ?_⟩
    · have h1 : truthy r.email = true :=
        (truthy_iff r.email).mpr ⟨u.email, he, (hfields u hu).1⟩
      have h2 : truthy r.password = true :=
        (truthy_iff r.password).mpr ⟨u.password, hp, (hfields u hu).2⟩
      rw [h1, h2] at htr
      exact absurd htr (by decide)
    · rw [hte, htp] at htr
      exact absurd htr (by decide)
  · rw [if_neg htr]
    simp only [Bool.or_eq_true, Bool.not_eq_true', not_or, Bool.not_eq_false] at htr
    obtain ⟨s, hes, hsne⟩ := (truthy_iff r.email).mp htr.1
    obtain ⟨p, hps, hpne⟩ := (truthy_iff r.password).mp htr.2
    have hgd : r.email.getD "" = s := by rw [hes]; rfl
    have hgp : r.password.getD "" = p := by rw [hps]; rfl
    rcases filter_email_nodup users (r.email.getD "") hnodup with hfil | ⟨u, hfil, hmem, hue⟩
    · rw [hfil]
      refine ⟨⟨fun ⟨uid, nm, tok, age, he⟩ => absurd he (by simp [authenticate]),
        fun ⟨u, hu, he, hp⟩ => ?_⟩,
        fun uid nm tok age he => absurd he (by simp [authenticate]), fun _ _ _ => rfl⟩
      have hmf : u ∈ users.filter (fun v => v.email == r.email.getD "") := by
        have hse : u.email = s := by
          rw [hes] at he
          injection he with h
          rw [h]
        exact List.mem_filter.mpr ⟨hu, beq_iff_eq.mpr (by rw [hgd, hse])⟩
      rw [hfil] at hmf
      exact absurd hmf (by simp)
    · rw [hfil]
      simp only [authenticate]
      have hue' : u.email = s := hue.trans hgd
      by_cases hpw : u.password = r.password.getD ""
      · rw [if_neg (by simp [hpw])]
        refine ⟨⟨fun _ => ⟨u, hmem, ?_, ?_⟩, fun _ => ⟨u.id, u.name, _, _, rfl⟩⟩,
          fun uid nm tok age he => ?_, fun hne _ _ => ?_⟩
        · rw [hes, hue']
        · rw [hps, hpw, hgp]
        · injection he with h1 h2 h3 h4
          rw [← h3, ← h4]
          exact ⟨rfl, rfl, rfl⟩
        · refine absurd ⟨u, hmem, ?_, ?_⟩ hne
          · rw [hes, hue']
          · rw [hps, hpw, hgp]
      · rw [if_pos (by simp [hpw])]
        refine ⟨⟨fun ⟨uid, nm, tok, age, he⟩ => absurd he (by simp),
          fun ⟨u', hu', he', hp'⟩ => ?_⟩,
          fun uid nm tok age he => absurd he (by simp), fun _ _ _ => rfl⟩
        have hsame : u'.email = u.email := by
          rw [hes] at he'
          injection he' with h
          rw [← h]
          exact hue'.symm
        have huu : u' = u :=
          List.inj_on_of_nodup_map hnodup hu' hmem hsame
        subst huu
        refine absurd ?_ hpw
        rw [hps] at hp'
        injection hp' with h
        rw [hgp, ← h]

theorem login_user_correct_witness :
    (∃ uid nm tok age,
      login_user [⟨1, "Bob", "bob@x.com", "secret"⟩]
        ⟨"POST", some "bob@x.com", some "secret"⟩ 1000 = .ok uid nm tok age) ∧
    login_user [⟨1, "Bob", "bob@x.com", "secret"⟩]
        ⟨"POST", some "bob@x.com", some "wrong"⟩ 1000 =
      .err 400 "Invalid email or password" :=
  ⟨(login_user_correct [⟨1, "Bob", "bob@x.com", "secret"⟩]
      ⟨"POST", some "bob@x.com", some "secret"⟩ 1000 (by simp) (by decide) rfl).1.mpr
      ⟨⟨1, "Bob", "bob@x.com", "secret"⟩, by simp, rfl, rfl⟩,
    (login_user_correct [⟨1, "Bob", "bob@x.com", "secret"⟩]
      ⟨"POST", some "bob@x.com", some "wrong"⟩ 1000 (by simp) (by decide) rfl).2.2
      (by decide) rfl rfl⟩

/-- C10 counterexample: a non-POST request carrying credentials that do
match a registered user is answered 405, not 200, so "responds with 200
iff some registered user matches email and password" fails as stated
(without the restriction to POST requests). -/
theorem login_user_nonpost_counterexample :
    login_user [⟨1, "Bob", "bob@x.com", "secret"⟩]
        ⟨"GET", some "bob@x.com", some "secret"⟩ 0 = .err 405 "Only POST allowed" ∧
    ∃ u ∈ [(⟨1, "Bob", "bob@x.com", "secret"⟩ : UserRegistration)],
      (⟨"GET", some "bob@x.com", some "secret"⟩ : LoginRequest).email = some u.email ∧
      (⟨"GET", some "bob@x.com", some "secret"⟩ : LoginRequest).password = some u.password := by
  refine ⟨rfl, ⟨1, "Bob", "bob@x.com", "secret"⟩, by simp, rfl, rfl⟩
